import Mathlib

/-!
Verification of the WRP test framework (`test_wrp_framework.py`,
`test_wrp_helpers.py`).

Python strings are modelled as `List Char`.  The external JSON parser
(`json.loads`) and the external `jsonschema.validate` checker are modelled as
parameters of the functions that call them; everything else is translated
directly from the source.
-/

set_option maxHeartbeats 1000000
set_option maxRecDepth 16000

/-- Convert a Lean string literal to the `List Char` representation used for
Python strings throughout this development. -/
def lc (s : String) : List Char := s.toList

/-- The JSON value domain produced by the (abstract) JSON parser.  Numbers are
modelled as integers; the claims under verification never involve floats. -/
inductive JsonValue where
  | str  : List Char → JsonValue
  | num  : Int → JsonValue
  | bool : Bool → JsonValue
  | null : JsonValue
  | arr  : List JsonValue → JsonValue
  | obj  : List (List Char × JsonValue) → JsonValue

mutual

/-- Deep structural equality on JSON values (Python `==` on parsed JSON). -/
def jeq : JsonValue → JsonValue → Bool
  | .str a, .str b => a = b
  | .num a, .num b => a = b
  | .bool a, .bool b => a = b
  | .null, .null => true
  | .arr a, .arr b => jeqArr a b
  | .obj a, .obj b => jeqObj a b
  | _, _ => false

/-- Elementwise deep equality of JSON arrays. -/
def jeqArr : List JsonValue → List JsonValue → Bool
  | [], [] => true
  | a :: as', b :: bs' => jeq a b && jeqArr as' bs'
  | _, _ => false

/-- Pairwise deep equality of JSON objects (entry order sensitive; the claims
under verification never depend on key order). -/
def jeqObj : List (List Char × JsonValue) → List (List Char × JsonValue) → Bool
  | [], [] => true
  | (k, v) :: as', (k', v') :: bs' => decide (k = k') && jeq v v' && jeqObj as' bs'
  | _, _ => false

end

/-- Python exception values relevant to the framework, each carrying the
message that `str(e)` would produce (for `KeyError`, the missing key). -/
inductive PyExc where
  | keyError       : List Char → PyExc
  | typeError      : List Char → PyExc
  | valueError     : List Char → PyExc
  | runtimeError   : List Char → PyExc
  | timeoutError   : List Char → PyExc
  | assertionError : List Char → PyExc
  | indexError     : List Char → PyExc
  | attributeError : List Char → PyExc
deriving DecidableEq

/-- The message carried by an exception (Python `str(e)`). -/
def PyExc.msg : PyExc → List Char
  | .keyError m => m
  | .typeError m => m
  | .valueError m => m
  | .runtimeError m => m
  | .timeoutError m => m
  | .assertionError m => m
  | .indexError m => m
  | .attributeError m => m

/-- Whether an exception is of timeout class (`TimeoutError`). -/
def PyExc.isTimeoutClass : PyExc → Bool
  | .timeoutError _ => true
  | _ => false

/-- Python `str.find`: index of the first occurrence of `needle` in `hay`,
`none` standing for Python result `-1`. -/
def findSub (needle : List Char) : List Char → Option Nat
  | [] => if needle = [] then some 0 else none
  | c :: t =>
    if needle.isPrefixOf (c :: t) then some 0
    else (findSub needle t).map (· + 1)

/-- Python `str.find(needle, start)`: search from offset `start`, returning an
absolute index. -/
def findFrom (needle hay : List Char) (start : Nat) : Option Nat :=
  (findSub needle (hay.drop start)).map (· + start)

/-- Python substring test (`needle in hay`). -/
def hasSub (needle hay : List Char) : Bool :=
  (findSub needle hay).isSome

/-- Python slice `s[a:b]` (for `0 ≤ a`, `0 ≤ b`). -/
def pySlice (s : List Char) (a b : Nat) : List Char :=
  (s.drop a).take (b - a)

/-- The whitespace class of Python `str.strip` / regex `\s`. -/
def isPySpace (c : Char) : Bool :=
  c = ' ' ∨ c = '\t' ∨ c = '\n' ∨ c = '\x0d' ∨ c = '\x0c' ∨ c = '\x0b'

/-- Python `str.strip()`. -/
def pyStrip (s : List Char) : List Char :=
  ((s.dropWhile isPySpace).reverse.dropWhile isPySpace).reverse

/-- Decimal rendering of a natural number (Python `str(n)` for `n ≥ 0`). -/
def natLC (n : Nat) : List Char := (toString n).toList

/-- Decimal rendering of an integer (Python `str(n)`). -/
def intLC (n : Int) : List Char := (toString n).toList

example : findSub (lc "abc") (lc "xxabcy") = some 2 := by decide
example : findSub (lc "abc") (lc "xxaby") = none := by decide
example : pyStrip (lc "  hi there\n") = lc "hi there" := by decide
example : pySlice (lc "abcdef") 2 4 = lc "cd" := by decide

/-! ## The brace-pattern scan of `extract_json_from_response`

Models `re.findall(r'\x7b[^\x7b\x7d]*(?:\x7b[^\x7b\x7d]*\x7d[^\x7b\x7d]*)*\x7d', response)`:
non-overlapping, left-to-right matches of a one-level balanced-brace object
pattern.  For this particular pattern the backtracking regex engine is
deterministic: every `[^\x7b\x7d]*` run is forced maximal because the next token
must match a brace. -/

/-- Character class `[^\x7b\x7d]` of the object pattern. -/
def isNonBrace (c : Char) : Bool := ¬(c = '\x7b') ∧ ¬(c = '\x7d')

/-- Matches `(?:\x7b[^\x7b\x7d]*\x7d[^\x7b\x7d]*)*\x7d` against the argument (which, as
called, always starts with a brace or is empty).  Returns the consumed span and
the remainder. -/
def braceLoop : Nat → List Char → Option (List Char × List Char)
  | _, '\x7d' :: r => some (['\x7d'], r)
  | fuel + 1, '\x7b' :: r =>
    let b := r.takeWhile isNonBrace
    match r.dropWhile isNonBrace with
    | '\x7d' :: r2 =>
      let c := r2.takeWhile isNonBrace
      match braceLoop fuel (r2.dropWhile isNonBrace) with
      | some (rest, after) => some ('\x7b' :: b ++ '\x7d' :: c ++ rest, after)
      | none => none
    | _ => none
  | _, _ => none

/-- Attempts to match the object pattern at the head of `s`. -/
def braceMatchAt (s : List Char) : Option (List Char × List Char) :=
  match s with
  | '\x7b' :: t =>
    let a := t.takeWhile isNonBrace
    match braceLoop s.length (t.dropWhile isNonBrace) with
    | some (body, rest) => some ('\x7b' :: a ++ body, rest)
    | none => none
  | _ => none

/-- Left-to-right non-overlapping scan (`re.findall`). -/
def braceFindAll : Nat → List Char → List (List Char)
  | 0, _ => []
  | _, [] => []
  | fuel + 1, c :: t =>
    match braceMatchAt (c :: t) with
    | some (m, rest) => m :: braceFindAll fuel rest
    | none => braceFindAll fuel t

/-- All matches of the JSON-object regex in `s`, in order of appearance. -/
def regexObjMatches (s : List Char) : List (List Char) :=
  braceFindAll s.length s

example : regexObjMatches (lc "x \x7b\x22a\x22: 1\x7d y") = [lc "\x7b\x22a\x22: 1\x7d"] := by decide
example : regexObjMatches (lc "\x7b\x22b\x22: \x7b\x22c\x22: 2\x7d, \x22d\x22: 3\x7d tail \x7bz") =
    [lc "\x7b\x22b\x22: \x7b\x22c\x22: 2\x7d, \x22d\x22: 3\x7d"] := by decide
example : regexObjMatches (lc "no objects here") = [] := by decide

/-! ## `extract_json_from_response`

The external parser `json.loads` is a parameter
`loads : List Char → Except (List Char) JsonValue`; an `.error e` result
carries the text of the `json.JSONDecodeError`.  The fall-through chain of the
source is split into one definition per strategy; each carries the
`extraction_attempts` list accumulated so far. -/

/-- The final diagnostic message (`error_msg` of the source). -/
def mkErrMsg (attempts : List (List Char)) (response : List Char) : List Char :=
  lc "No valid JSON found in response. Attempted extractions:\n"
    ++ (attempts.map (fun a => lc "  - " ++ a ++ lc "\n")).flatten
    ++ lc "\nResponse content (first 500 chars): " ++ response.take 500

/-- Strategy 4: parse the entire stripped response. -/
def extractStep4 (loads : List Char → Except (List Char) JsonValue)
    (response : List Char) (attempts : List (List Char)) :
    Except (List Char) JsonValue :=
  match loads (pyStrip response) with
  | .ok v => .ok v
  | .error e =>
    .error (mkErrMsg (attempts ++ [lc "Direct parsing: JSONDecodeError - " ++ e]) response)

/-- Strategy 3, inner loop: try each regex match in order of appearance. -/
def tryBraceMatches (loads : List Char → Except (List Char) JsonValue)
    (response : List Char) :
    List (List Char) → Nat → List (List Char) → Except (List Char) JsonValue
  | [], _, attempts => extractStep4 loads response attempts
  | m :: rest, i, attempts =>
    match loads (pyStrip m) with
    | .ok v => .ok v
    | .error e =>
      tryBraceMatches loads response rest (i + 1)
        (attempts ++ [lc "Regex pattern match " ++ natLC (i + 1)
                        ++ lc ": JSONDecodeError - " ++ e])

/-- Strategy 3: JSON-object regex patterns. -/
def extractStep3 (loads : List Char → Except (List Char) JsonValue)
    (response : List Char) (attempts : List (List Char)) :
    Except (List Char) JsonValue :=
  match regexObjMatches response with
  | [] => extractStep4 loads response
      (attempts ++ [lc "Regex pattern search: No JSON-like patterns found"])
  | m :: rest => tryBraceMatches loads response (m :: rest) 0 attempts

/-- Strategy 2: first generic ``` fenced block. -/
def extractStep2 (loads : List Char → Except (List Char) JsonValue)
    (response : List Char) (attempts : List (List Char)) :
    Except (List Char) JsonValue :=
  match findSub (lc "```") response with
  | some s0 =>
    match findFrom (lc "```") response (s0 + 3) with
    | some e0 =>
      match loads (pyStrip (pySlice response (s0 + 3) e0)) with
      | .ok v => .ok v
      | .error e =>
        extractStep3 loads response
          (attempts ++ [lc "Generic code blocks: JSONDecodeError - " ++ e])
    | none =>
      extractStep3 loads response
        (attempts ++ [lc "Generic code blocks: Found opening ``` but no closing ```"])
  | none => extractStep3 loads response attempts

/-- `extract_json_from_response`, starting with strategy 1 (the first
```json fenced block). -/
def extract_json_from_response (loads : List Char → Except (List Char) JsonValue)
    (response : List Char) : Except (List Char) JsonValue :=
  match findSub (lc "```json") response with
  | some s0 =>
    match findFrom (lc "```") response (s0 + 7) with
    | some e0 =>
      match loads (pyStrip (pySlice response (s0 + 7) e0)) with
      | .ok v => .ok v
      | .error e =>
        extractStep2 loads response [lc "Markdown JSON blocks: JSONDecodeError - " ++ e]
    | none =>
      extractStep2 loads response
        [lc "Markdown JSON blocks: Found opening ```json but no closing ```"]
  | none => extractStep2 loads response []

/-- The message of a failed extraction (and `[]` on success). -/
def errOf : Except (List Char) JsonValue → List Char
  | .error m => m
  | .ok _ => []

/-- Whether an `Except` result is a success. -/
def exOk {ε α : Type} : Except ε α → Bool
  | .ok _ => true
  | .error _ => false

/-- A `json.loads` stand-in that accepts exactly the entries of a table. -/
def loadsTbl (tbl : List (List Char × JsonValue)) :
    List Char → Except (List Char) JsonValue := fun s =>
  match tbl.find? (fun p => decide (p.1 = s)) with
  | some p => .ok p.2
  | none => .error (lc "Expecting value: line 1 column 1 (char 0)")

/-! ## `extract_response_content` (transcript segmenter)

Models `re.findall(r'Query:\s*\n(.*?)(?=\nQuery:|\nSession with|\nExiting\.\.\.|\Z)',
full_output, re.DOTALL)`.  At a `Query:` occurrence the greedy `\s*\n` consumes
the maximal whitespace run through its last newline (and fails if the run has
no newline, in which case the engine moves on); the lazy capture then extends
to the first position where one of the lookahead alternatives (or end of
input) matches, which the engine does not consume. -/

/-- The lookahead `(?=\nQuery:|\nSession with|\nExiting\.\.\.)`. -/
def atMarker (s : List Char) : Bool :=
  (lc "\nQuery:").isPrefixOf s || (lc "\nSession with").isPrefixOf s
    || (lc "\nExiting...").isPrefixOf s

/-- Lazy capture until the first marker position or end of input; returns the
capture and the unconsumed remainder. -/
def captureUntil : Nat → List Char → List Char × List Char
  | _, [] => ([], [])
  | 0, s => ([], s)
  | fuel + 1, c :: t =>
    if atMarker (c :: t) then ([], c :: t)
    else
      let (cap, rest) := captureUntil fuel t
      (c :: cap, rest)

/-- The `findall` scan over the transcript. -/
def ercScan : Nat → List Char → List (List Char)
  | 0, _ => []
  | _, [] => []
  | fuel + 1, c :: t =>
    if (lc "Query:").isPrefixOf (c :: t) then
      let rest := (c :: t).drop 6
      let w := rest.takeWhile isPySpace
      match w.reverse.findIdx? (· = '\n') with
      | some k =>
        let body := rest.drop (w.length - k)
        let (cap, after) := captureUntil body.length body
        cap :: ercScan fuel after
      | none => ercScan fuel t
    else ercScan fuel t

/-- `extract_response_content`: segment the transcript, strip each span, and
drop spans that are empty or begin with a terminal phrase. -/
def extract_response_content (full_output : List Char) : List (List Char) :=
  (ercScan full_output.length full_output).filterMap fun m =>
    let cleaned := pyStrip m
    if cleaned.isEmpty then none
    else if (lc "Exiting").isPrefixOf cleaned then none
    else if (lc "Session with").isPrefixOf cleaned then none
    else some cleaned

example :
    extract_response_content
      (lc "Welcome\nQuery:\nHello there\nQuery:\nSecond answer\nExiting...\n") =
      [lc "Hello there", lc "Second answer"] := by decide
example : extract_response_content (lc "no markers at all") = [] := by decide
example :
    extract_response_content (lc "Query:\n\nQuery:\nreal\nSession with x closed") =
      [lc "Query:\nreal"] := by decide

/-! ## `validate_json_response`

`jsonschema.validate` is modelled by the parameter
`schemaCheck : List (List Char × JsonValue) → JsonValue → Option (List Char)`
(schema, instance; `some m` is a `ValidationError` with message `m`).  The
response value may be any JSON value, so Python's `key in value` and
`value[key]` are modelled for every shape. -/

mutual

/-- Python `repr` of a parsed-JSON value (string escaping simplified to plain
single quotes; the claims never depend on escaped content). -/
def pyReprJ : JsonValue → List Char
  | .str s => '\x27' :: s ++ ['\x27']
  | .num n => intLC n
  | .bool b => if b then lc "True" else lc "False"
  | .null => lc "None"
  | .arr l => '[' :: (List.intercalate (lc ", ") (pyReprArr l)) ++ [']']
  | .obj l => '\x7b' :: (List.intercalate (lc ", ") (pyReprObj l)) ++ ['\x7d']

/-- `repr` of the elements of a JSON array. -/
def pyReprArr : List JsonValue → List (List Char)
  | [] => []
  | v :: r => pyReprJ v :: pyReprArr r

/-- `repr` of the entries of a JSON object. -/
def pyReprObj : List (List Char × JsonValue) → List (List Char)
  | [] => []
  | (k, v) :: r => ('\x27' :: k ++ lc "\x27: " ++ pyReprJ v) :: pyReprObj r

end

/-- Python `str` of a parsed-JSON value (as interpolated by an f-string). -/
def pyStrJ : JsonValue → List Char
  | .str s => s
  | .num n => intLC n
  | .bool b => if b then lc "True" else lc "False"
  | .null => lc "None"
  | .arr l => pyReprJ (.arr l)
  | .obj l => pyReprJ (.obj l)

/-- First-match lookup in a JSON object (Python `dict` access; keys unique). -/
def lookupJ (l : List (List Char × JsonValue)) (k : List Char) : Option JsonValue :=
  (l.find? (fun p => decide (p.1 = k))).map (·.2)

/-- Python `key in value` for a string key. -/
def pyInJ (k : List Char) : JsonValue → Except PyExc Bool
  | .obj l => .ok (lookupJ l k).isSome
  | .arr l => .ok (l.any (fun v => jeq v (.str k)))
  | .str s => .ok (hasSub k s)
  | _ => .error (.typeError (lc "argument is not iterable"))

/-- Python `value[key]` for a string key. -/
def getItemJ (k : List Char) : JsonValue → Except PyExc JsonValue
  | .obj l =>
    match lookupJ l k with
    | some v => .ok v
    | none => .error (.keyError k)
  | .str _ => .error (.typeError (lc "string indices must be integers"))
  | .arr _ => .error (.typeError (lc "list indices must be integers or slices, not str"))
  | _ => .error (.typeError (lc "object is not subscriptable"))

/-- The `AssertionError` message for a missing expected key. -/
def missingKeyMsg (k : List Char) : List Char :=
  lc "Missing expected key \x27" ++ k ++ lc "\x27 in response"

/-- The `AssertionError` message for a mismatched expected value. -/
def mismatchMsg (k : List Char) (v a : JsonValue) : List Char :=
  lc "Expected " ++ k ++ lc "=\x27" ++ pyStrJ v ++ lc "\x27, got \x27" ++ pyStrJ a ++ lc "\x27"

/-- The expected-values loop of `validate_json_response`, in dict insertion
order. -/
def checkExpected (rj : JsonValue) : List (List Char × JsonValue) → Except PyExc Unit
  | [] => .ok ()
  | (k, v) :: rest =>
    match pyInJ k rj with
    | .error e => .error e
    | .ok false => .error (.assertionError (missingKeyMsg k))
    | .ok true =>
      match getItemJ k rj with
      | .error e => .error e
      | .ok a =>
        if jeq a v then checkExpected rj rest
        else .error (.assertionError (mismatchMsg k v a))

/-- `validate_json_response`: schema check (when the schema dict is truthy)
then expected-values check (a run over an empty mapping trivially passes). -/
def validate_json_response
    (schemaCheck : List (List Char × JsonValue) → JsonValue → Option (List Char))
    (response_json : JsonValue)
    (expected_json json_schema : List (List Char × JsonValue)) : Except PyExc Unit :=
  if json_schema.isEmpty then checkExpected response_json expected_json
  else
    match schemaCheck json_schema response_json with
    | some m => .error (.assertionError (lc "JSON schema validation failed: " ++ m))
    | none => checkExpected response_json expected_json

/-! ## `_execute_wrp_subprocess`

Only the outcome of `process.communicate` is environmental; it is modelled by
`CommOutcome`.  The inner `TimeoutError` / `RuntimeError` raises sit inside
the outer `try`, whose blanket `except Exception` re-wraps them in
`RuntimeError(f"WRP execution failed: {e}")`. -/

/-- Outcome of the child process interaction. -/
inductive CommOutcome where
  | timeout
  | completed (returncode : Int) (stdout stderr : List Char)
  | spawnError (msg : List Char)

/-- `_execute_wrp_subprocess` for a given communicate outcome. -/
def execute_wrp_subprocess (tmo : Nat) (oc : CommOutcome) : Except PyExc (List Char) :=
  match oc with
  | .completed rc out err =>
    if rc = 0 then .ok (pyStrip out)
    else .error (.runtimeError (lc "WRP execution failed: "
      ++ (lc "WRP failed with code " ++ intLC rc ++ lc ": " ++ err)))
  | .timeout =>
    .error (.runtimeError (lc "WRP execution failed: "
      ++ (lc "WRP process timed out after " ++ natLC tmo ++ lc " seconds")))
  | .spawnError m => .error (.runtimeError (lc "WRP execution failed: " ++ m))

/-! ## `_run_single_test_iteration` -/

/-- A test turn as used at run time (prompts are strings in every test
definition). -/
structure RTTurn where
  prompt : List Char
  expected_json : List (List Char × JsonValue)
  json_schema : List (List Char × JsonValue)

/-- The run-time view of a test case. -/
structure RTCase where
  turns : List RTTurn
  timeout : Nat

/-- The multi-turn branch of the input-script construction. -/
def multiTurnInput (turns : List RTTurn) : List Char :=
  (turns.foldl (fun acc t => acc ++ t.prompt ++ lc "\n") []) ++ lc "quit\n"

/-- The single-turn branch of the input-script construction
(the f-string interpolating `turns[0].prompt` before `\nquit\n`). -/
def singleTurnInput (t : RTTurn) : List Char :=
  t.prompt ++ lc "\nquit\n"

/-- The input-script construction of `_run_single_test_iteration`: the
multi-turn branch when `len(turns) > 1`, otherwise the single-turn branch,
which indexes `turns[0]` and so raises `IndexError` on zero turns. -/
def buildInput : List RTTurn → Except PyExc (List Char)
  | [] => .error (.indexError (lc "list index out of range"))
  | [t] => .ok (singleTurnInput t)
  | t :: t' :: rest => .ok (multiTurnInput (t :: t' :: rest))

/-- The per-turn validation loop: extraction (a `ValueError` on failure) then
validation, any failure re-raised as a `RuntimeError` whose message interpolates
the one-based turn index and `str(e)`, which aborts the remaining turns. -/
def runTurns (loads : List Char → Except (List Char) JsonValue)
    (schemaCheck : List (List Char × JsonValue) → JsonValue → Option (List Char)) :
    List (List Char × RTTurn) → Nat → Except PyExc (List JsonValue)
  | [], _ => .ok []
  | (resp, turn) :: rest, i =>
    let turnResult : Except PyExc JsonValue :=
      match extract_json_from_response loads resp with
      | .error m => .error (.valueError m)
      | .ok rj =>
        match validate_json_response schemaCheck rj turn.expected_json turn.json_schema with
        | .error e => .error e
        | .ok _ => .ok rj
    match turnResult with
    | .error e => .error (.runtimeError (lc "Turn " ++ natLC (i + 1) ++ lc " failed: " ++ e.msg))
    | .ok rj =>
      match runTurns loads schemaCheck rest (i + 1) with
      | .ok more => .ok (rj :: more)
      | .error e => .error e

/-- The successful payload of one iteration. -/
structure SuccessRec where
  responses : List (List Char)
  json : List JsonValue

/-- The body of `_run_single_test_iteration` up to its blanket `except`;
`execR` is the outcome of the single `_execute_wrp_subprocess` call. -/
def runSingleIterationAux (loads : List Char → Except (List Char) JsonValue)
    (schemaCheck : List (List Char × JsonValue) → JsonValue → Option (List Char))
    (execR : Except PyExc (List Char)) (tc : RTCase) : Except PyExc SuccessRec :=
  match buildInput tc.turns with
  | .error e => .error e
  | .ok _input =>
    match execR with
    | .error e => .error e
    | .ok full_output =>
      let responses := extract_response_content full_output
      if responses.length = tc.turns.length then
        match runTurns loads schemaCheck (responses.zip tc.turns) 0 with
        | .ok js => .ok ⟨responses, js⟩
        | .error e => .error e
      else
        .error (.runtimeError (lc "Expected " ++ natLC tc.turns.length
          ++ lc " responses, got " ++ natLC responses.length))

/-- Either branch of the per-iteration result dict. -/
inductive RespVal where
  | strs (l : List (List Char))
  | str (s : List Char)

/-- One iteration's result dict (`iteration` is set only by the exception
branch of `run_test`). -/
structure IterationResult where
  passed : Bool
  response : RespVal
  response_json : Option (List JsonValue)
  error : Option (List Char)
  iteration : Option Nat

/-- `_run_single_test_iteration`: the blanket `except Exception` converts any
raise into a failed dict; `getattr(e, 'response', '')` is `''` for every
exception type raised in the body. -/
def runSingleIteration (loads : List Char → Except (List Char) JsonValue)
    (schemaCheck : List (List Char × JsonValue) → JsonValue → Option (List Char))
    (execR : Except PyExc (List Char)) (tc : RTCase) : IterationResult :=
  match runSingleIterationAux loads schemaCheck execR tc with
  | .ok r => ⟨true, .strs r.responses, some r.json, none, none⟩
  | .error e => ⟨false, .str [], none, some e.msg, none⟩

/-! ## `run_test` (robustness aggregation)

The per-trial outcomes are a list (one entry per loop index of
`range(iteration_count)`); a trial that raises is an `.error` carrying
`str(e)`. -/

/-- The failed dict appended by the `except` branch of the `run_test` loop. -/
def excRecord (msg : List Char) (i : Nat) : IterationResult :=
  ⟨false, .str [], none, some msg, some (i + 1)⟩

/-- The `iterations` list accumulated by the `run_test` loop, starting at
index `i`. -/
def iterationsOf : Nat → List (Except (List Char) IterationResult) → List IterationResult
  | _, [] => []
  | i, .ok r :: rest => r :: iterationsOf (i + 1) rest
  | i, .error e :: rest => excRecord e i :: iterationsOf (i + 1) rest

/-- The aggregated dict returned by `run_test`. -/
structure CaseResult where
  passed : Bool
  response : RespVal
  response_json : Option (List JsonValue)
  error : Option (List Char)
  iterations : List IterationResult
  successful_runs : Nat
  total_runs : Nat

/-- `run_test`: aggregate the per-trial outcomes.  `none` models the
`IndexError` of `iterations[-1]` when the loop ran zero times. -/
def run_test (trials : List (Except (List Char) IterationResult)) : Option CaseResult :=
  let its := iterationsOf 0 trials
  let n := trials.length
  let succ := its.countP (·.passed)
  let allPassed := succ == n
  let err := if allPassed then none
             else some (lc "Only " ++ natLC succ ++ lc "/" ++ natLC n ++ lc " iterations passed")
  match its.find? (·.passed) with
  | some r => some ⟨allPassed, r.response, r.response_json, err, its, succ, n⟩
  | none =>
    match its.getLast? with
    | some lastRec => some ⟨allPassed, lastRec.response, none, err, its, succ, n⟩
    | none => none

/-! ## Test loading (`WRPTestCase.__init__`, `WRPTestRunner.load_tests`)

Parsed YAML documents are modelled by `YVal`.  File access and the YAML parse
itself are environmental; `load_tests` is modelled from the point where the
parsed document is available.  A `KeyError` carries the missing key. -/

/-- A parsed YAML value. -/
inductive YVal where
  | s    : List Char → YVal
  | i    : Int → YVal
  | b    : Bool → YVal
  | list : List YVal → YVal
  | dict : List (List Char × YVal) → YVal
  | null : YVal

/-- Python `dict.get(k)` on a parsed mapping. -/
def yGet (d : List (List Char × YVal)) (k : List Char) : Option YVal :=
  (d.find? (fun p => decide (p.1 = k))).map (·.2)

/-- Python `d[k]` (raises `KeyError` when absent). -/
def yGetItem (d : List (List Char × YVal)) (k : List Char) : Except PyExc YVal :=
  match yGet d k with
  | some v => .ok v
  | none => .error (.keyError k)

/-- Python `d.get(k, default)`. -/
def yGetD (d : List (List Char × YVal)) (k : List Char) (dflt : YVal) : YVal :=
  (yGet d k).getD dflt

/-- A loaded `WRPTestTurn` (fields are stored untyped, as in the source). -/
structure WRPTestTurn where
  prompt : YVal
  expected_json : YVal
  json_schema : YVal

/-- A loaded `WRPTestCase`. -/
structure WRPTestCase where
  name : YVal
  description : YVal
  mcps : YVal
  timeout : YVal
  turns : List WRPTestTurn

/-- Construction of one turn inside `WRPTestCase.__init__` (a non-mapping
entry is collapsed to a `TypeError`, as indexing it with a string would
raise). -/
def mkTestTurn : YVal → Except PyExc WRPTestTurn
  | .dict d =>
    match yGetItem d (lc "prompt") with
    | .error e => .error e
    | .ok p =>
      .ok ⟨p, yGetD d (lc "expected_json") (.dict []),
             yGetD d (lc "json_schema") (.dict [])⟩
  | _ => .error (.typeError (lc "object is not subscriptable"))

/-- `WRPTestCase.__init__`: requires `name`, `description`, `mcps`; `timeout`
defaults to 30 and `turns` to the empty list.  No validation of the turn
count is performed. -/
def WRPTestCase_init : YVal → Except PyExc WRPTestCase
  | .dict d =>
    match yGetItem d (lc "name") with
    | .error e => .error e
    | .ok nm =>
      match yGetItem d (lc "description") with
      | .error e => .error e
      | .ok ds =>
        match yGetItem d (lc "mcps") with
        | .error e => .error e
        | .ok mc =>
          let tmo := yGetD d (lc "timeout") (.i 30)
          match yGetD d (lc "turns") (.list []) with
          | .list ts =>
            match ts.mapM mkTestTurn with
            | .ok turns => .ok ⟨nm, ds, mc, tmo, turns⟩
            | .error e => .error e
          | _ => .error (.typeError (lc "object is not iterable"))
  | _ => .error (.typeError (lc "object is not subscriptable"))

/-- `load_tests` from the parsed document: one `WRPTestCase` per entry of the
top-level `tests` list (defaulting to the empty list). -/
def load_tests : YVal → Except PyExc (List WRPTestCase)
  | .dict d =>
    match yGetD d (lc "tests") (.list []) with
    | .list ts => ts.mapM WRPTestCase_init
    | _ => .error (.typeError (lc "object is not iterable"))
  | _ => .error (.attributeError (lc "object has no attribute get"))

/-! # Theorems -/

/-! ## Helper lemmas -/

lemma foldl_prompt_append (l : List RTTurn) (init : List Char) :
    l.foldl (fun acc t => acc ++ t.prompt ++ lc "\n") init
      = init ++ (l.map (fun t => t.prompt ++ lc "\n")).flatten := by
  induction l generalizing init with
  | nil => simp
  | cons t ts ih =>
    rw [List.foldl_cons, ih]
    simp [List.append_assoc]

/-- Whether an invocation outcome failed with a timeout-class exception. -/
def timedOutClass : Except PyExc (List Char) → Bool
  | .error e => e.isTimeoutClass
  | .ok _ => false

/-- C10: for every test case with at least one turn, the input script written
to the child process is the concatenation of each turn's prompt followed by a
newline, in declared order, followed by the line `quit`; and the dedicated
single-turn branch produces exactly the string the multi-turn branch would
produce for a one-turn case. -/
theorem c10_input_script (turns : List RTTurn) (t : RTTurn) (h : turns ≠ []) :
    buildInput turns
      = .ok ((turns.map (fun u => u.prompt ++ lc "\n")).flatten ++ lc "quit\n")
    ∧ singleTurnInput t = multiTurnInput [t] := by
  constructor
  · match turns with
    | [] => exact absurd rfl h
    | [u] =>
      show Except.ok (singleTurnInput u) = _
      simp only [singleTurnInput, List.map_cons, List.map_nil, List.flatten,
        List.append_nil, List.append_assoc]
      rfl
    | u :: u' :: rest =>
      show Except.ok (multiTurnInput (u :: u' :: rest)) = _
      rw [multiTurnInput, foldl_prompt_append]
      simp [List.append_assoc]
  · simp only [singleTurnInput, multiTurnInput, List.foldl_cons, List.foldl_nil,
      List.nil_append, List.append_assoc]
    rfl

/-- C10 witness. -/
theorem c10_input_script_wit :
    buildInput [⟨lc "hi", [], []⟩]
      = .ok (([(⟨lc "hi", [], []⟩ : RTTurn)].map (fun u => u.prompt ++ lc "\n")).flatten
          ++ lc "quit\n")
    ∧ singleTurnInput ⟨lc "hi", [], []⟩ = multiTurnInput [⟨lc "hi", [], []⟩] :=
  c10_input_script [⟨lc "hi", [], []⟩] ⟨lc "hi", [], []⟩ (by simp)

/-- C5 counterexample: at `timeoutSeconds = 1` with the child exceeding the
deadline, the invocation fails with a `RuntimeError` (the inner `TimeoutError`
is re-wrapped by the blanket handler), not with a timeout-class error, though
the message does name the configured duration. -/
theorem c5_timeout_not_timeout_class :
    execute_wrp_subprocess 1 CommOutcome.timeout
      = .error (.runtimeError
          (lc "WRP execution failed: WRP process timed out after 1 seconds"))
    ∧ timedOutClass (execute_wrp_subprocess 1 CommOutcome.timeout) = false :=
  ⟨rfl, rfl⟩

/-- C5 amended: when the child process exceeds the configured deadline, the
invocation fails with a `RuntimeError` wrapping the internal timeout error,
whose message names the configured duration. -/
theorem c5_timeout_message (tmo : Nat) :
    execute_wrp_subprocess tmo CommOutcome.timeout
      = .error (.runtimeError (lc "WRP execution failed: WRP process timed out after "
          ++ natLC tmo ++ lc " seconds")) := rfl

/-- The parsed test document of the C4 counterexample: one test case whose
`turns` list is empty. -/
def zeroTurnDoc : YVal :=
  .dict [(lc "tests", .list [.dict
    [(lc "name", .s (lc "zero")), (lc "description", .s (lc "no turns")),
     (lc "mcps", .list []), (lc "turns", .list [])]])]

/-- C4 counterexample: loading a document containing a zero-turn test case
does not fail; the `WRPTestCase` is constructed with an empty `turns` list. -/
theorem c4_zero_turns_loads_ok :
    load_tests zeroTurnDoc
      = .ok [⟨.s (lc "zero"), .s (lc "no turns"), .list [], .i 30, []⟩] := rfl

/-- C4 amended: a test case with zero turns is accepted at load time
(`turns` defaults to the empty list and no count validation exists); the
defect surfaces only at run time, when the single-turn branch indexes
`turns[0]` and the iteration fails with the `IndexError` message. -/
theorem c4_zero_turns_constructed (nm ds mc : YVal)
    (loads : List Char → Except (List Char) JsonValue)
    (schemaCheck : List (List Char × JsonValue) → JsonValue → Option (List Char))
    (execR : Except PyExc (List Char)) (tmo : Nat) :
    WRPTestCase_init (.dict [(lc "name", nm), (lc "description", ds),
        (lc "mcps", mc), (lc "turns", .list [])])
      = .ok ⟨nm, ds, mc, .i 30, []⟩
    ∧ runSingleIteration loads schemaCheck execR ⟨[], tmo⟩
      = ⟨false, .str [], none, some (lc "list index out of range"), none⟩ :=
  ⟨rfl, rfl⟩

/-! ## Aggregation lemmas (`run_test`) -/

/-- The record that the `run_test` loop stores for the trial at index `i`. -/
def trialRecord (i : Nat) : Except (List Char) IterationResult → IterationResult
  | .ok r => r
  | .error e => excRecord e i

lemma iterationsOf_length (k : Nat)
    (ts : List (Except (List Char) IterationResult)) :
    (iterationsOf k ts).length = ts.length := by
  induction ts generalizing k with
  | nil => rfl
  | cons t rest ih => cases t <;> simp [iterationsOf, ih]

lemma iterationsOf_getElem? (k : Nat)
    (ts : List (Except (List Char) IterationResult)) (i : Nat) :
    (iterationsOf k ts)[i]? = ts[i]?.map (trialRecord (k + i)) := by
  induction ts generalizing k i with
  | nil => simp [iterationsOf]
  | cons t rest ih =>
    cases i with
    | zero => cases t <;> simp [iterationsOf, trialRecord]
    | succ n =>
      have hn : k + 1 + n = k + (n + 1) := by omega
      cases t with
      | ok r =>
        show (r :: iterationsOf (k + 1) rest)[n + 1]?
            = Option.map (trialRecord (k + (n + 1))) ((Except.ok r :: rest)[n + 1]?)
        rw [List.getElem?_cons_succ, List.getElem?_cons_succ, ih (k + 1) n, hn]
      | error e =>
        show (excRecord e k :: iterationsOf (k + 1) rest)[n + 1]?
            = Option.map (trialRecord (k + (n + 1))) ((Except.error e :: rest)[n + 1]?)
        rw [List.getElem?_cons_succ, List.getElem?_cons_succ, ih (k + 1) n, hn]

lemma iterationsOf_ne_nil (ts : List (Except (List Char) IterationResult))
    (h : ts ≠ []) : iterationsOf 0 ts ≠ [] := by
  intro hc
  apply h
  have := iterationsOf_length 0 ts
  rw [hc] at this
  exact List.length_eq_zero.mp this.symm

/-- Every member of the accumulated iterations list is either a result
returned by a trial or an exception record. -/
lemma iterationsOf_mem (k : Nat) (ts : List (Except (List Char) IterationResult))
    (x : IterationResult) (hx : x ∈ iterationsOf k ts) :
    (Except.ok x ∈ ts) ∨ ∃ e i, x = excRecord e i := by
  induction ts generalizing k with
  | nil => simp [iterationsOf] at hx
  | cons t rest ih =>
    cases t with
    | ok r =>
      rcases List.mem_cons.mp hx with h | h
      · exact Or.inl (by simp [h])
      · rcases ih (k + 1) h with h' | h'
        · exact Or.inl (List.mem_cons_of_mem _ h')
        · exact Or.inr h'
    | error e =>
      rcases List.mem_cons.mp hx with h | h
      · exact Or.inr ⟨e, k, h⟩
      · rcases ih (k + 1) h with h' | h'
        · exact Or.inl (List.mem_cons_of_mem _ h')
        · exact Or.inr h'

/-- C1: the aggregate case verdict is pass exactly when `successful_runs`
equals `total_runs`, where `successful_runs` counts the passing iterations and
`total_runs` is the number of trials run. -/
theorem c1_aggregate_pass_iff (trials : List (Except (List Char) IterationResult))
    (res : CaseResult) (h : run_test trials = some res) :
    (res.passed = true ↔ res.successful_runs = res.total_runs)
    ∧ res.successful_runs = (iterationsOf 0 trials).countP (·.passed)
    ∧ res.total_runs = trials.length := by
  simp only [run_test] at h
  split at h
  · cases h
    refine ⟨?_, rfl, rfl⟩
    simp
  · split at h
    · cases h
      refine ⟨?_, rfl, rfl⟩
      simp
    · cases h

/-- A passing iteration record (C1 witness data). -/
def passRec : IterationResult := ⟨true, .strs [lc "ok"], some [], none, none⟩

/-- A failing iteration record (C1 witness data). -/
def failRec : IterationResult := ⟨false, .str [], none, some (lc "boom"), none⟩

/-- The `[pass, fail, pass]` trial list of the claim's example. -/
def trialsPFP : List (Except (List Char) IterationResult) :=
  [.ok passRec, .ok failRec, .ok passRec]

/-- The aggregate that `run_test` produces for `[pass, fail, pass]`: verdict
fail, `successful_runs = 2`, `total_runs = 3`. -/
def resPFP : CaseResult :=
  ⟨false, .strs [lc "ok"], some [], some (lc "Only 2/3 iterations passed"),
    [passRec, failRec, passRec], 2, 3⟩

/-- C1 witness, at the claim's `[pass, fail, pass]` example. -/
theorem c1_aggregate_pass_iff_wit :
    (resPFP.passed = true ↔ resPFP.successful_runs = resPFP.total_runs)
    ∧ resPFP.successful_runs = (iterationsOf 0 trialsPFP).countP (·.passed)
    ∧ resPFP.total_runs = trialsPFP.length :=
  c1_aggregate_pass_iff trialsPFP resPFP rfl

/-- C8: every trial-loop outcome is recorded: the iterations list has exactly
one entry per trial, a trial that raised `e` at index `i` is recorded there as
the failed dict (with its one-based `iteration` index), and a nonempty trial
list always yields an aggregate result (no trial exception aborts the run). -/
theorem c8_exception_isolation (trials : List (Except (List Char) IterationResult))
    (i : Nat) (e : List Char) (h : trials[i]? = some (.error e)) :
    (iterationsOf 0 trials).length = trials.length
    ∧ (iterationsOf 0 trials)[i]? = some (excRecord e i)
    ∧ (trials ≠ [] → (run_test trials).isSome = true) := by
  refine ⟨iterationsOf_length 0 trials, ?_, ?_⟩
  · rw [iterationsOf_getElem?, h]
    simp [trialRecord]
  · intro hne
    simp only [run_test]
    split
    · simp
    · split
      · simp
      · next hl =>
        exact absurd (List.getLast?_eq_none_iff.mp hl) (iterationsOf_ne_nil trials hne)

/-- C8 witness: a trial list whose second trial raised. -/
theorem c8_exception_isolation_wit :
    (iterationsOf 0 [.ok passRec, .error (lc "crash")]).length
        = [Except.ok passRec, .error (lc "crash")].length
    ∧ (iterationsOf 0 [.ok passRec, .error (lc "crash")])[1]?
        = some (excRecord (lc "crash") 1)
    ∧ ([Except.ok passRec, .error (lc "crash")] ≠ [] →
        (run_test [.ok passRec, .error (lc "crash")]).isSome = true) :=
  c8_exception_isolation [.ok passRec, .error (lc "crash")] 1 (lc "crash") rfl

/-- C6: the representative response data of the aggregate is that of the first
successful iteration or, when none succeeded, that of the last iteration (whose
extracted JSON is `none`, as is the aggregate's); the verdict is computed from
the pass flags alone.  The hypothesis `hinv` states the invariant of the trial
results (failed iteration dicts carry no `response_json`), which
`runSingleIteration` guarantees. -/
theorem c6_representative_response
    (trials : List (Except (List Char) IterationResult)) (res : CaseResult)
    (r : IterationResult) (h : run_test trials = some res)
    (hinv : ∀ x, Except.ok x ∈ trials → x.passed = false → x.response_json = none) :
    ((iterationsOf 0 trials).find? (·.passed) = some r →
        res.response = r.response ∧ res.response_json = r.response_json)
    ∧ ((iterationsOf 0 trials).find? (·.passed) = none →
        (iterationsOf 0 trials).getLast? = some r →
        res.response = r.response ∧ res.response_json = none ∧ r.response_json = none)
    ∧ res.passed = ((iterationsOf 0 trials).countP (·.passed) == trials.length) := by
  simp only [run_test] at h
  split at h
  · next r' hf =>
    cases h
    refine ⟨?_, ?_, rfl⟩
    · intro hr
      rw [hf] at hr
      cases hr
      exact ⟨rfl, rfl⟩
    · intro hn
      rw [hf] at hn
      cases hn
  · next hf =>
    split at h
    · next lastR hl =>
      cases h
      refine ⟨?_, ?_, rfl⟩
      · intro hr
        rw [hf] at hr
        cases hr
      · intro _ hr
        rw [hl] at hr
        injection hr with hq
        subst hq
        refine ⟨rfl, rfl, ?_⟩
        have hmem := List.mem_of_getLast?_eq_some hl
        have hnp : lastR.passed = false := by
          have := List.find?_eq_none.mp hf lastR hmem
          simpa using this
        rcases iterationsOf_mem 0 trials lastR hmem with hok | ⟨e, i, rfl⟩
        · exact hinv lastR hok hnp
        · rfl
    · cases h

/-- The `[fail, pass]` trial list of the C6 witness. -/
def trialsC6 : List (Except (List Char) IterationResult) :=
  [.ok failRec, .ok passRec]

/-- The aggregate produced by `run_test` on `[fail, pass]` (C6 witness data). -/
def resC6 : CaseResult :=
  ⟨false, .strs [lc "ok"], some [], some (lc "Only 1/2 iterations passed"),
    [failRec, passRec], 1, 2⟩

/-- C6 witness: trials `[fail, pass]`, whose representative data is the second
(first successful) iteration's. -/
theorem c6_representative_response_wit :
    ((iterationsOf 0 trialsC6).find? (·.passed) = some passRec →
        resC6.response = passRec.response
          ∧ resC6.response_json = passRec.response_json)
    ∧ ((iterationsOf 0 trialsC6).find? (·.passed) = none →
        (iterationsOf 0 trialsC6).getLast? = some passRec →
        resC6.response = passRec.response ∧ resC6.response_json = none
          ∧ passRec.response_json = none)
    ∧ resC6.passed
        = ((iterationsOf 0 trialsC6).countP (·.passed) == trialsC6.length) :=
  c6_representative_response trialsC6 resC6 passRec rfl
    (by
      intro x hx hp
      rcases List.mem_cons.mp hx with h1 | h1
      · injection h1 with h1
        subst h1
        rfl
      · rcases List.mem_cons.mp h1 with h2 | h2
        · injection h2 with h2
          subst h2
          simp [passRec] at hp
        · simp [trialsC6] at h2)

/-! ## Segmentation-mismatch and validation claims -/

/-- A schema checker that accepts everything (witness data; the claims with an
empty schema never invoke it). -/
def schemaOk : List (List Char × JsonValue) → JsonValue → Option (List Char) :=
  fun _ _ => none

/-- C7: when the number of segmented responses differs from the turn count, the
iteration body raises the `RuntimeError`-class mismatch error (recorded by the
blanket handler as the iteration's failure), and a successful iteration always
carries the segmented responses unmodified, with exactly one per turn — never
padded or truncated. -/
theorem c7_count_mismatch (loads : List Char → Except (List Char) JsonValue)
    (schemaCheck : List (List Char × JsonValue) → JsonValue → Option (List Char))
    (out : List Char) (tc : RTCase) (r : SuccessRec) (hne : tc.turns ≠ []) :
    ((extract_response_content out).length ≠ tc.turns.length →
        runSingleIterationAux loads schemaCheck (.ok out) tc
          = .error (.runtimeError (lc "Expected " ++ natLC tc.turns.length
              ++ lc " responses, got " ++ natLC (extract_response_content out).length))
        ∧ runSingleIteration loads schemaCheck (.ok out) tc
          = ⟨false, .str [], none,
              some (lc "Expected " ++ natLC tc.turns.length
                ++ lc " responses, got " ++ natLC (extract_response_content out).length),
              none⟩)
    ∧ (runSingleIterationAux loads schemaCheck (.ok out) tc = .ok r →
        r.responses = extract_response_content out
          ∧ r.responses.length = tc.turns.length) := by
  obtain ⟨inp, hinp⟩ : ∃ inp, buildInput tc.turns = .ok inp := by
    rcases htc : tc.turns with _ | ⟨t, _ | ⟨t', rest⟩⟩
    · exact absurd htc hne
    · exact ⟨_, rfl⟩
    · exact ⟨_, rfl⟩
  constructor
  · intro hlen
    have haux : runSingleIterationAux loads schemaCheck (.ok out) tc
        = .error (.runtimeError (lc "Expected " ++ natLC tc.turns.length
            ++ lc " responses, got " ++ natLC (extract_response_content out).length)) := by
      simp only [runSingleIterationAux]
      rw [hinp]
      simp [if_neg hlen]
    refine ⟨haux, ?_⟩
    simp only [runSingleIteration]
    rw [haux]
    rfl
  · intro hok
    simp only [runSingleIterationAux] at hok
    rw [hinp] at hok
    by_cases hlen : (extract_response_content out).length = tc.turns.length
    · rw [if_pos hlen] at hok
      cases hres : runTurns loads schemaCheck
          ((extract_response_content out).zip tc.turns) 0 with
      | ok js =>
        rw [hres] at hok
        cases hok
        exact ⟨rfl, hlen⟩
      | error e =>
        rw [hres] at hok
        cases hok
    · rw [if_neg hlen] at hok
      cases hok

/-- Witness data for C7: a two-turn case. -/
def tcC7 : RTCase := ⟨[⟨lc "p1", [], []⟩, ⟨lc "p2", [], []⟩], 30⟩

/-- C7 witness: a transcript with a single `Query:` span against a two-turn
case. -/
theorem c7_count_mismatch_wit :
    ((extract_response_content (lc "Query:\nhi")).length ≠ tcC7.turns.length →
        runSingleIterationAux (loadsTbl []) schemaOk (.ok (lc "Query:\nhi")) tcC7
          = .error (.runtimeError (lc "Expected " ++ natLC tcC7.turns.length
              ++ lc " responses, got "
              ++ natLC (extract_response_content (lc "Query:\nhi")).length))
        ∧ runSingleIteration (loadsTbl []) schemaOk (.ok (lc "Query:\nhi")) tcC7
          = ⟨false, .str [], none,
              some (lc "Expected " ++ natLC tcC7.turns.length
                ++ lc " responses, got "
                ++ natLC (extract_response_content (lc "Query:\nhi")).length),
              none⟩)
    ∧ (runSingleIterationAux (loadsTbl []) schemaOk (.ok (lc "Query:\nhi")) tcC7
          = .ok ⟨[], []⟩ →
        ([] : List (List Char)) = extract_response_content (lc "Query:\nhi")
          ∧ ([] : List (List Char)).length = tcC7.turns.length) :=
  c7_count_mismatch (loadsTbl []) schemaOk (lc "Query:\nhi") tcC7 ⟨[], []⟩
    (by simp [tcC7])

/-- Whether a JSON object contains `k` with a value deeply equal to `v`. -/
def dictHasEq (rj : List (List Char × JsonValue)) (k : List Char) (v : JsonValue) : Bool :=
  match lookupJ rj k with
  | some a => jeq a v
  | none => false

lemma checkExpected_isOk_iff (rj : List (List Char × JsonValue))
    (l : List (List Char × JsonValue)) :
    exOk (checkExpected (.obj rj) l) = true
      ↔ l.all (fun p => dictHasEq rj p.1 p.2) = true := by
  induction l with
  | nil => simp [checkExpected, exOk]
  | cons p rest ih =>
    obtain ⟨k, v⟩ := p
    simp only [checkExpected, pyInJ, List.all_cons, Bool.and_eq_true]
    cases hl : lookupJ rj k with
    | none =>
      simp only [hl, Option.isSome_none]
      constructor
      · intro hx
        exact Bool.noConfusion hx
      · rintro ⟨hx, -⟩
        simp only [dictHasEq, hl] at hx
        exact Bool.noConfusion hx
    | some a =>
      simp only [hl, Option.isSome_some, getItemJ]
      by_cases hj : jeq a v = true
      · rw [if_pos hj, ih]
        constructor
        · intro hx
          refine ⟨?_, hx⟩
          simp only [dictHasEq, hl]
          exact hj
        · exact fun hx => hx.2
      · rw [if_neg hj]
        constructor
        · intro hx
          exact Bool.noConfusion hx
        · rintro ⟨hx, -⟩
          simp only [dictHasEq, hl] at hx
          exact absurd hx hj

/-- C9: with an empty schema, validation of an extracted object against a
non-empty expected-value mapping succeeds exactly when every expected key is
present with a deeply equal value; the first missing key fails with the
`AssertionError` naming the key, and the first mismatched key fails with the
`AssertionError` naming the key, the expected value and the actual value; and
with both the schema and the expected mapping empty, validation passes
unconditionally. -/
theorem c9_validation (schemaCheck : List (List Char × JsonValue) → JsonValue → Option (List Char))
    (rj ej rest : List (List Char × JsonValue))
    (km k2 : List Char) (v1 v2 a : JsonValue) :
    (ej ≠ [] →
      (exOk (validate_json_response schemaCheck (.obj rj) ej []) = true
        ↔ ej.all (fun p => dictHasEq rj p.1 p.2) = true))
    ∧ validate_json_response schemaCheck (.obj rj) [] [] = .ok ()
    ∧ (lookupJ rj km = none →
        validate_json_response schemaCheck (.obj rj) ((km, v1) :: rest) []
          = .error (.assertionError (missingKeyMsg km)))
    ∧ (lookupJ rj k2 = some a → jeq a v2 = false →
        validate_json_response schemaCheck (.obj rj) ((k2, v2) :: rest) []
          = .error (.assertionError (mismatchMsg k2 v2 a))) := by
  refine ⟨fun _ => checkExpected_isOk_iff rj ej, rfl, ?_, ?_⟩
  · intro hm
    show checkExpected (.obj rj) ((km, v1) :: rest) = _
    simp [checkExpected, pyInJ, hm]
  · intro hs hj
    show checkExpected (.obj rj) ((k2, v2) :: rest) = _
    simp [checkExpected, pyInJ, getItemJ, hs, hj]

/-- The extracted object of the C9 witness. -/
def rjC9 : List (List Char × JsonValue) := [(lc "status", .str (lc "ok"))]

/-- C9 witness: a matching expected mapping, an absent key, and a mismatched
value against the same extracted object. -/
theorem c9_validation_wit :
    (rjC9 ≠ [] →
      (exOk (validate_json_response schemaOk (.obj rjC9) rjC9 []) = true
        ↔ rjC9.all (fun p => dictHasEq rjC9 p.1 p.2) = true))
    ∧ validate_json_response schemaOk (.obj rjC9) [] [] = .ok ()
    ∧ (lookupJ rjC9 (lc "absent") = none →
        validate_json_response schemaOk (.obj rjC9) ((lc "absent", .str (lc "x")) :: []) []
          = .error (.assertionError (missingKeyMsg (lc "absent"))))
    ∧ (lookupJ rjC9 (lc "status") = some (.str (lc "ok")) →
        jeq (.str (lc "ok")) (.num 1) = false →
        validate_json_response schemaOk (.obj rjC9) ((lc "status", .num 1) :: []) []
          = .error (.assertionError (mismatchMsg (lc "status") (.num 1) (.str (lc "ok"))))) :=
  c9_validation schemaOk rjC9 rjC9 [] (lc "absent") (lc "status") (.str (lc "x"))
    (.num 1) (.str (lc "ok"))

/-! ## String-search lemmas for the extraction claims -/

lemma isPrefixOf_true {l1 l2 : List Char} (h : l1 <+: l2) : l1.isPrefixOf l2 = true := by
  simpa using h

lemma prefix_of_isPrefixOf {l1 l2 : List Char} (h : l1.isPrefixOf l2 = true) : l1 <+: l2 := by
  simpa using h

lemma findSub_some_of_pfx (needle hay : List Char) (hne : needle ≠ [])
    (h : needle <+: hay) : findSub needle hay = some 0 := by
  cases hay with
  | nil =>
    rcases h with ⟨t, ht⟩
    cases needle with
    | nil => exact absurd rfl hne
    | cons a b => exact absurd ht (by simp)
  | cons c tl =>
    simp only [findSub]
    rw [if_pos (isPrefixOf_true h)]

/-- When `needle` does not occur in `p` (nor spanning into its own first
characters), its first occurrence in `p ++ needle ++ r` is exactly at
`p.length`. -/
lemma findSub_append_first (needle p r : List Char) (hne : needle ≠ [])
    (h : findSub needle (p ++ needle.dropLast) = none) :
    findSub needle (p ++ needle ++ r) = some p.length := by
  induction p with
  | nil =>
    simpa using findSub_some_of_pfx needle (needle ++ r) hne (List.prefix_append needle r)
  | cons a p' ih =>
    have hd : needle.dropLast ++ [needle.getLast hne] = needle :=
      List.dropLast_append_getLast hne
    have h' : findSub needle (p' ++ needle.dropLast) = none := by
      have hh := h
      simp only [List.cons_append, findSub, List.append_eq] at hh
      by_cases hp : needle.isPrefixOf (a :: (p' ++ needle.dropLast)) = true
      · rw [if_pos hp] at hh
        exact absurd hh (by simp)
      · rw [if_neg hp] at hh
        exact Option.map_eq_none'.mp hh
    have hnp : ¬ needle.isPrefixOf (a :: (p' ++ needle ++ r)) = true := by
      intro hp
      have hpf : needle <+: a :: (p' ++ needle ++ r) := by
        have := prefix_of_isPrefixOf hp
        simpa using this
      have hpf2 : (a :: (p' ++ needle.dropLast)) <+: a :: (p' ++ needle ++ r) := by
        refine ⟨[needle.getLast hne] ++ r, ?_⟩
        conv_rhs => rw [← hd]
        simp [List.append_assoc]
      have hlen : needle.length ≤ (a :: (p' ++ needle.dropLast)).length := by
        have hpos : 0 < needle.length := List.length_pos.mpr hne
        simp only [List.length_cons, List.length_append, List.length_dropLast]
        omega
      have hin : needle <+: a :: (p' ++ needle.dropLast) :=
        List.prefix_of_prefix_length_le hpf hpf2 hlen
      have hz : findSub needle (a :: (p' ++ needle.dropLast)) = some 0 :=
        findSub_some_of_pfx _ _ hne hin
      have hco := h
      simp only [List.cons_append] at hco
      exact absurd (hco.symm.trans hz) (by simp)
    simp only [List.cons_append, findSub, List.append_eq]
    rw [if_neg hnp, ih h']
    rfl

/-- C2: whenever the first occurrence of the  ```json  delimiter is followed
by a closing  ```  fence (the first  ```json  block), and the enclosed,
stripped content parses as JSON, extraction returns that parsed value —
whatever text, however invalid-looking, precedes or follows the block.  The
two `findSub` hypotheses say exactly that the named occurrences are the first
ones: no  ```json  occurs in the prefix and no  ```  occurs in the body. -/
theorem c2_json_block_extraction (loads : List Char → Except (List Char) JsonValue)
    (p m r : List Char) (v : JsonValue)
    (hp : findSub (lc "```json") (p ++ lc "```jso") = none)
    (hm : findSub (lc "```") (m ++ lc "``") = none)
    (hl : loads (pyStrip m) = .ok v) :
    extract_json_from_response loads (p ++ lc "```json" ++ m ++ lc "```" ++ r)
      = .ok v := by
  have hne7 : lc "```json" ≠ [] := by decide
  have hne3 : lc "```" ≠ [] := by decide
  have h1 : findSub (lc "```json") (p ++ lc "```json" ++ (m ++ (lc "```" ++ r)))
      = some p.length := by
    refine findSub_append_first (lc "```json") p (m ++ (lc "```" ++ r)) hne7 ?_
    have hd7 : (lc "```json").dropLast = lc "```jso" := by decide
    rw [hd7]
    exact hp
  have hdrop : (p ++ lc "```json" ++ (m ++ (lc "```" ++ r))).drop (p.length + 7)
      = m ++ (lc "```" ++ r) := by
    refine List.drop_left' ?_
    rw [List.length_append]
    rfl
  have h2 : findSub (lc "```") (m ++ lc "```" ++ r) = some m.length := by
    refine findSub_append_first (lc "```") m r hne3 ?_
    have hd3 : (lc "```").dropLast = lc "``" := by decide
    rw [hd3]
    exact hm
  have hf : findFrom (lc "```") (p ++ lc "```json" ++ (m ++ (lc "```" ++ r)))
      (p.length + 7) = some (m.length + (p.length + 7)) := by
    rw [findFrom, hdrop, ← List.append_assoc, h2]
    rfl
  have hslice : pySlice (p ++ lc "```json" ++ (m ++ (lc "```" ++ r)))
      (p.length + 7) (m.length + (p.length + 7)) = m := by
    rw [pySlice, hdrop]
    have : m.length + (p.length + 7) - (p.length + 7) = m.length := by omega
    rw [this]
    exact List.take_left m (lc "```" ++ r)
  have hresp : p ++ lc "```json" ++ m ++ lc "```" ++ r
      = p ++ lc "```json" ++ (m ++ (lc "```" ++ r)) := by
    simp [List.append_assoc]
  rw [hresp]
  simp only [extract_json_from_response, h1, hf, hslice, hl]

/-- C2 witness: a  ```json  block with valid JSON surrounded by invalid text
(including stray fences after the block). -/
theorem c2_json_block_extraction_wit :
    extract_json_from_response (loadsTbl [(lc "1", .num 1)])
        (lc "junk << not json" ++ lc "```json" ++ lc " 1 " ++ lc "```"
          ++ lc " more ``` junk")
      = .ok (.num 1) :=
  c2_json_block_extraction (loadsTbl [(lc "1", .num 1)]) (lc "junk << not json")
    (lc " 1 ") (lc " more ``` junk") (.num 1) (by decide) (by decide) rfl

/-! ## Diagnostic-message lemmas for C3 -/

lemma attempt_infix_mkErrMsg (attempts : List (List Char)) (response a : List Char)
    (h : a ∈ attempts) : a <:+: mkErrMsg attempts response := by
  have h1 : a <:+: (lc "  - " ++ a ++ lc "\n") := ⟨lc "  - ", lc "\n", rfl⟩
  have h2 : (lc "  - " ++ a ++ lc "\n")
      ∈ attempts.map (fun x => lc "  - " ++ x ++ lc "\n") :=
    List.mem_map_of_mem _ h
  have h3 : (lc "  - " ++ a ++ lc "\n")
      <:+: (attempts.map (fun x => lc "  - " ++ x ++ lc "\n")).flatten :=
    List.infix_of_mem_flatten h2
  have h4 : (attempts.map (fun x => lc "  - " ++ x ++ lc "\n")).flatten
      <:+: mkErrMsg attempts response := by
    refine ⟨lc "No valid JSON found in response. Attempted extractions:\n",
      lc "\nResponse content (first 500 chars): " ++ response.take 500, ?_⟩
    rw [mkErrMsg]
    simp [List.append_assoc]
  exact h1.trans (h3.trans h4)

lemma label_line_in_msg (attempts : List (List Char)) (response label a : List Char)
    (hpfx : label <+: a) (h : a ∈ attempts) : label <:+: mkErrMsg attempts response :=
  hpfx.isInfix.trans (attempt_infix_mkErrMsg attempts response a h)

lemma preview_infix_mkErrMsg (attempts : List (List Char)) (response : List Char) :
    response.take 500 <:+: mkErrMsg attempts response := by
  refine ⟨lc "No valid JSON found in response. Attempted extractions:\n"
      ++ (attempts.map (fun x => lc "  - " ++ x ++ lc "\n")).flatten
      ++ lc "\nResponse content (first 500 chars): ", [], ?_⟩
  rw [mkErrMsg]
  simp [List.append_assoc]

lemma extractStep4_error_spec (loads : List Char → Except (List Char) JsonValue)
    (response : List Char) (attempts : List (List Char)) (msg : List Char)
    (h : extractStep4 loads response attempts = .error msg) :
    (∀ a ∈ attempts, a <:+: msg)
    ∧ (lc "Direct parsing: JSONDecodeError - ") <:+: msg
    ∧ response.take 500 <:+: msg := by
  cases hl : loads (pyStrip response) with
  | ok v => simp [extractStep4, hl] at h
  | error e =>
    simp only [extractStep4, hl] at h
    injection h with h
    subst h
    refine ⟨fun a ha => attempt_infix_mkErrMsg _ _ a (List.mem_append_left _ ha), ?_, ?_⟩
    · exact label_line_in_msg _ _ _ (lc "Direct parsing: JSONDecodeError - " ++ e)
        (List.prefix_append _ _) (by simp)
    · exact preview_infix_mkErrMsg _ _

lemma tryBraceMatches_error_spec (loads : List Char → Except (List Char) JsonValue)
    (response : List Char) (ms : List (List Char)) :
    ∀ (i : Nat) (attempts : List (List Char)) (msg : List Char),
      tryBraceMatches loads response ms i attempts = .error msg →
      (∀ a ∈ attempts, a <:+: msg)
      ∧ (lc "Direct parsing: JSONDecodeError - ") <:+: msg
      ∧ response.take 500 <:+: msg
      ∧ (ms ≠ [] → (lc "Regex pattern match ") <:+: msg) := by
  induction ms with
  | nil =>
    intro i attempts msg h
    simp only [tryBraceMatches] at h
    obtain ⟨ha, hd, hp⟩ := extractStep4_error_spec loads response attempts msg h
    exact ⟨ha, hd, hp, fun hc => absurd rfl hc⟩
  | cons m rest ih =>
    intro i attempts msg h
    simp only [tryBraceMatches] at h
    cases hl : loads (pyStrip m) with
    | ok v => simp [hl] at h
    | error e =>
      simp only [hl] at h
      obtain ⟨ha, hd, hp, -⟩ := ih (i + 1)
        (attempts ++ [lc "Regex pattern match " ++ natLC (i + 1)
          ++ lc ": JSONDecodeError - " ++ e]) msg h
      refine ⟨fun a hm => ha a (List.mem_append_left _ hm), hd, hp, fun _ => ?_⟩
      have hline : (lc "Regex pattern match ")
          <+: (lc "Regex pattern match " ++ natLC (i + 1)
            ++ lc ": JSONDecodeError - " ++ e) :=
        ⟨natLC (i + 1) ++ lc ": JSONDecodeError - " ++ e, by simp [List.append_assoc]⟩
      exact hline.isInfix.trans (ha _ (by simp))

lemma extractStep3_error_spec (loads : List Char → Except (List Char) JsonValue)
    (response : List Char) (attempts : List (List Char)) (msg : List Char)
    (h : extractStep3 loads response attempts = .error msg) :
    (∀ a ∈ attempts, a <:+: msg)
    ∧ (lc "Direct parsing: JSONDecodeError - ") <:+: msg
    ∧ response.take 500 <:+: msg
    ∧ (lc "Regex pattern") <:+: msg := by
  simp only [extractStep3] at h
  cases hms : regexObjMatches response with
  | nil =>
    simp only [hms] at h
    obtain ⟨ha, hd, hp⟩ := extractStep4_error_spec loads response _ msg h
    refine ⟨fun a hm => ha a (List.mem_append_left _ hm), hd, hp, ?_⟩
    have hpfx : (lc "Regex pattern")
        <+: (lc "Regex pattern search: No JSON-like patterns found") :=
      ⟨lc " search: No JSON-like patterns found", by decide⟩
    exact hpfx.isInfix.trans (ha _ (by simp))
  | cons m rest =>
    simp only [hms] at h
    obtain ⟨ha, hd, hp, hr⟩ :=
      tryBraceMatches_error_spec loads response (m :: rest) 0 attempts msg h
    refine ⟨ha, hd, hp, ?_⟩
    have hpfx : (lc "Regex pattern") <+: (lc "Regex pattern match ") :=
      ⟨lc " match ", by decide⟩
    exact hpfx.isInfix.trans (hr (by simp))

lemma extractStep2_error_spec (loads : List Char → Except (List Char) JsonValue)
    (response : List Char) (attempts : List (List Char)) (msg : List Char)
    (h : extractStep2 loads response attempts = .error msg) :
    (∀ a ∈ attempts, a <:+: msg)
    ∧ (lc "Direct parsing: JSONDecodeError - ") <:+: msg
    ∧ response.take 500 <:+: msg
    ∧ (lc "Regex pattern") <:+: msg
    ∧ ((findSub (lc "```") response).isSome = true →
        (lc "Generic code blocks") <:+: msg) := by
  simp only [extractStep2] at h
  cases hf : findSub (lc "```") response with
  | none =>
    simp only [hf] at h
    obtain ⟨ha, hd, hp, hr⟩ := extractStep3_error_spec loads response attempts msg h
    exact ⟨ha, hd, hp, hr, fun hc => absurd hc (by simp)⟩
  | some s0 =>
    simp only [hf] at h
    cases hff : findFrom (lc "```") response (s0 + 3) with
    | some e0 =>
      simp only [hff] at h
      cases hl : loads (pyStrip (pySlice response (s0 + 3) e0)) with
      | ok v => simp [hl] at h
      | error e =>
        simp only [hl] at h
        obtain ⟨ha, hd, hp, hr⟩ := extractStep3_error_spec loads response _ msg h
        refine ⟨fun a hm => ha a (List.mem_append_left _ hm), hd, hp, hr, fun _ => ?_⟩
        have hpfx : (lc "Generic code blocks")
            <+: (lc "Generic code blocks: JSONDecodeError - " ++ e) := by
          refine ⟨lc ": JSONDecodeError - " ++ e, ?_⟩
          rw [← List.append_assoc]
          rfl
        exact hpfx.isInfix.trans (ha _ (by simp))
    | none =>
      simp only [hff] at h
      obtain ⟨ha, hd, hp, hr⟩ := extractStep3_error_spec loads response _ msg h
      refine ⟨fun a hm => ha a (List.mem_append_left _ hm), hd, hp, hr, fun _ => ?_⟩
      have hpfx : (lc "Generic code blocks")
          <+: (lc "Generic code blocks: Found opening ``` but no closing ```") :=
        ⟨lc ": Found opening ``` but no closing ```", by decide⟩
      exact hpfx.isInfix.trans (ha _ (by simp))

lemma extract_error_spec (loads : List Char → Except (List Char) JsonValue)
    (response msg : List Char)
    (h : extract_json_from_response loads response = .error msg) :
    (lc "Direct parsing: JSONDecodeError - ") <:+: msg
    ∧ response.take 500 <:+: msg
    ∧ (lc "Regex pattern") <:+: msg
    ∧ ((findSub (lc "```") response).isSome = true →
        (lc "Generic code blocks") <:+: msg)
    ∧ ((findSub (lc "```json") response).isSome = true →
        (lc "Markdown JSON blocks") <:+: msg) := by
  simp only [extract_json_from_response] at h
  cases hf : findSub (lc "```json") response with
  | none =>
    simp only [hf] at h
    obtain ⟨ha, hd, hp, hr, hg⟩ := extractStep2_error_spec loads response [] msg h
    exact ⟨hd, hp, hr, hg, fun hc => absurd hc (by simp)⟩
  | some s0 =>
    simp only [hf] at h
    cases hff : findFrom (lc "```") response (s0 + 7) with
    | some e0 =>
      simp only [hff] at h
      cases hl : loads (pyStrip (pySlice response (s0 + 7) e0)) with
      | ok v => simp [hl] at h
      | error e =>
        simp only [hl] at h
        obtain ⟨ha, hd, hp, hr, hg⟩ := extractStep2_error_spec loads response _ msg h
        refine ⟨hd, hp, hr, hg, fun _ => ?_⟩
        have hpfx : (lc "Markdown JSON blocks")
            <+: (lc "Markdown JSON blocks: JSONDecodeError - " ++ e) := by
          refine ⟨lc ": JSONDecodeError - " ++ e, ?_⟩
          rw [← List.append_assoc]
          rfl
        exact hpfx.isInfix.trans (ha _ (by simp))
    | none =>
      simp only [hff] at h
      obtain ⟨ha, hd, hp, hr, hg⟩ := extractStep2_error_spec loads response _ msg h
      refine ⟨hd, hp, hr, hg, fun _ => ?_⟩
      have hpfx : (lc "Markdown JSON blocks")
          <+: (lc "Markdown JSON blocks: Found opening ```json but no closing ```") :=
        ⟨lc ": Found opening ```json but no closing ```", by decide⟩
      exact hpfx.isInfix.trans (ha _ (by simp))

lemma findSub_isSome_iff (needle hay : List Char) :
    (findSub needle hay).isSome = true ↔ needle <:+: hay := by
  induction hay with
  | nil =>
    cases needle with
    | nil => simp [findSub]
    | cons c t => simp [findSub]
  | cons c tl ih =>
    simp only [findSub]
    by_cases hp : needle.isPrefixOf (c :: tl) = true
    · rw [if_pos hp]
      simp only [Option.isSome_some, true_iff]
      exact (prefix_of_isPrefixOf hp).isInfix
    · rw [if_neg hp]
      cases hfs : findSub needle tl with
      | none =>
        simp only [hfs, Option.map_none', Option.isSome_none]
        constructor
        · intro hx
          exact absurd hx (by simp)
        · intro hx
          rcases List.infix_cons_iff.mp hx with hpf | hin
          · exact absurd (isPrefixOf_true hpf) hp
          · have hsome := ih.mpr hin
            rw [hfs] at hsome
            exact absurd hsome (by simp)
      | some k =>
        simp only [hfs, Option.map_some', Option.isSome_some, true_iff]
        have : needle <:+: tl := ih.mp (by rw [hfs]; rfl)
        exact List.infix_cons_iff.mpr (Or.inr this)

lemma hasSub_intro (needle hay : List Char) (h : needle <:+: hay) :
    hasSub needle hay = true := by
  rw [hasSub]
  exact (findSub_isSome_iff needle hay).mpr h

/-- C3 amended: when no extraction strategy recovers parseable JSON, the error
message lists at least one recorded attempt for each strategy category that
was attempted — the two fenced-block categories record an attempt exactly when
their opening delimiter occurs in the response, while the brace-pattern and
whole-response categories always record one — and the message includes the
first 500 characters of the response. -/
theorem c3_failure_message (loads : List Char → Except (List Char) JsonValue)
    (response : List Char)
    (h : exOk (extract_json_from_response loads response) = false) :
    hasSub (lc "Regex pattern") (errOf (extract_json_from_response loads response)) = true
    ∧ hasSub (lc "Direct parsing: JSONDecodeError - ")
        (errOf (extract_json_from_response loads response)) = true
    ∧ hasSub (response.take 500)
        (errOf (extract_json_from_response loads response)) = true
    ∧ (hasSub (lc "```json") response = true →
        hasSub (lc "Markdown JSON blocks")
          (errOf (extract_json_from_response loads response)) = true)
    ∧ (hasSub (lc "```") response = true →
        hasSub (lc "Generic code blocks")
          (errOf (extract_json_from_response loads response)) = true) := by
  cases he : extract_json_from_response loads response with
  | ok v =>
    rw [he] at h
    exact absurd h (by simp [exOk])
  | error msg =>
    obtain ⟨hd, hp, hr, hg, hmd⟩ := extract_error_spec loads response msg he
    simp only [errOf]
    exact ⟨hasSub_intro _ _ hr, hasSub_intro _ _ hd, hasSub_intro _ _ hp,
      fun hc => hasSub_intro _ _ (hmd hc), fun hc => hasSub_intro _ _ (hg hc)⟩

/-- C3 counterexample: for the response `"x"` (no fences, no braces, not
JSON), extraction fails but the error message records no attempt for the
labeled-fenced-block category nor for the generic-fenced-block category — the
claim's "at least one recorded attempt for each strategy category" fails. -/
theorem c3_missing_categories :
    exOk (extract_json_from_response (loadsTbl []) (lc "x")) = false
    ∧ hasSub (lc "Markdown JSON blocks")
        (errOf (extract_json_from_response (loadsTbl []) (lc "x"))) = false
    ∧ hasSub (lc "Generic code blocks")
        (errOf (extract_json_from_response (loadsTbl []) (lc "x"))) = false :=
  ⟨rfl, rfl, rfl⟩

/-- C3 witness: a response with an unparseable  ```json  block, so that every
strategy category is attempted and listed. -/
theorem c3_failure_message_wit :
    hasSub (lc "Regex pattern")
      (errOf (extract_json_from_response (loadsTbl []) (lc "```json nope ``` rest"))) = true
    ∧ hasSub (lc "Direct parsing: JSONDecodeError - ")
        (errOf (extract_json_from_response (loadsTbl []) (lc "```json nope ``` rest"))) = true
    ∧ hasSub ((lc "```json nope ``` rest").take 500)
        (errOf (extract_json_from_response (loadsTbl []) (lc "```json nope ``` rest"))) = true
    ∧ (hasSub (lc "```json") (lc "```json nope ``` rest") = true →
        hasSub (lc "Markdown JSON blocks")
          (errOf (extract_json_from_response (loadsTbl []) (lc "```json nope ``` rest"))) = true)
    ∧ (hasSub (lc "```") (lc "```json nope ``` rest") = true →
        hasSub (lc "Generic code blocks")
          (errOf (extract_json_from_response (loadsTbl []) (lc "```json nope ``` rest"))) = true) :=
  c3_failure_message (loadsTbl []) (lc "```json nope ``` rest") rfl
